import Mathlib

/-!
# Verification of the simple-todo application

Shallow embedding of the todo application's server handlers
(`src/server/src/handlers/update_todo.ts`, `delete_todo.ts`), the client view
logic (`src/client/src/App.tsx` / the unnamed TodoApp component), and the theme
system (`ThemeToggle` component; the ThemeProvider's toggle/persistence
behaviour is modelled from the specification since its source is not present).

Timestamps are modelled as natural numbers; the database store is a list of
rows; TypeScript `undefined` (field omitted) is `Option.none` at the outer
layer and SQL `NULL` is `Option.none` at the inner layer, so an optional
nullable field is `Option (Option String)`.
-/

/-- A persisted todo row (table `todos`): id, title, nullable description,
completed flag, and two timestamps. -/
structure Todo where
  id : Nat
  title : String
  description : Option String
  completed : Bool
  created_at : Nat
  updated_at : Nat
deriving DecidableEq, Repr

/-- The `UpdateTodoInput` record: the id is required; the three optional fields are
present (`some`) or omitted (`none`); the description, when present, may be
the explicit absent-value `some none`. -/
structure UpdateTodoInput where
  id : Nat
  title : Option String := none
  description : Option (Option String) := none
  completed : Option Bool := none
deriving DecidableEq, Repr

/-- The `DeleteTodoInput` record: just the id. -/
structure DeleteTodoInput where
  id : Nat
deriving DecidableEq, Repr

/-- The `CreateTodoInput` record: required title, nullable description. -/
structure CreateTodoInput where
  title : String
  description : Option String
deriving DecidableEq, Repr

/-- The `updateValues` record built by `updateTodo` applied to one row: each
field explicitly present in the input overwrites the row's field, omitted
fields are left as they were, and `updated_at` is always set to the current
time. -/
def applyUpdate (input : UpdateTodoInput) (now : Nat) (t : Todo) : Todo :=
  { t with
    title := input.title.getD t.title
    description := input.description.getD t.description
    completed := input.completed.getD t.completed
    updated_at := now }

/-- The effect of the SQL `UPDATE ... WHERE id = input.id` on one row. -/
def updRow (input : UpdateTodoInput) (now : Nat) (t : Todo) : Todo :=
  if t.id = input.id then applyUpdate input now t else t

/-- The `updateTodo` handler: runs the update statement over the store, collects
the returned (matching) rows, errors when none matched, otherwise returns the
updated row.  The second component is the store after the call. -/
def updateTodo (input : UpdateTodoInput) (now : Nat) (store : List Todo) :
    Except String Todo × List Todo :=
  let store' := store.map (updRow input now)
  match store'.filter (fun t => t.id == input.id) with
  | [] => (Except.error ("Todo with id " ++ toString input.id ++ " not found"), store')
  | r :: _ => (Except.ok r, store')

/-- The `deleteTodo` handler: deletes rows matching the id, returns
`success := result.length > 0` together with the store after the call. -/
def deleteTodo (input : DeleteTodoInput) (store : List Todo) :
    Bool × List Todo :=
  let removed := store.filter (fun t => t.id == input.id)
  (decide (0 < removed.length), store.filter (fun t => t.id != input.id))

/-! ## Helper lemmas about the update statement -/

theorem applyUpdate_id (input : UpdateTodoInput) (now : Nat) (t : Todo) :
    (applyUpdate input now t).id = t.id := rfl

theorem filter_map_updRow (input : UpdateTodoInput) (now : Nat) (store : List Todo) :
    (store.map (updRow input now)).filter (fun t => t.id == input.id)
      = (store.filter (fun t => t.id == input.id)).map (applyUpdate input now) := by
  induction store with
  | nil => rfl
  | cons a l ih =>
      by_cases h : a.id = input.id
      · have h1 : updRow input now a = applyUpdate input now a := by
          simp [updRow, h]
        simp [List.filter_cons, List.map_cons, h1, applyUpdate_id, h, ih]
      · have h1 : updRow input now a = a := by
          simp [updRow, h]
        simp [List.filter_cons, List.map_cons, h1, h, ih]

theorem map_updRow_of_no_match (input : UpdateTodoInput) (now : Nat) (store : List Todo)
    (hnone : ∀ x ∈ store, x.id ≠ input.id) :
    store.map (updRow input now) = store := by
  induction store with
  | nil => rfl
  | cons a l ih =>
      have ha : a.id ≠ input.id := hnone a (List.mem_cons_self a l)
      have h1 : updRow input now a = a := by simp [updRow, ha]
      simp only [List.map_cons, h1]
      rw [ih (fun x hx => hnone x (List.mem_cons_of_mem a hx))]

/-! ## Client view (TodoApp component) -/

/-- The view's state that the create form touches: the local todo list, the
`isLoading` flag, and the create-form data. -/
structure ViewState where
  todos : List Todo
  isLoading : Bool
  formData : CreateTodoInput
deriving DecidableEq, Repr

/-- The create-form submit button is `disabled={isLoading}`. -/
def createButtonDisabled (isLoading : Bool) : Bool := isLoading

/-- First half of `handleSubmit`: if the trimmed title is empty the handler
returns before any RPC call (`none`); otherwise `isLoading` is set and the
create mutation is issued (`some` in-flight state). -/
def handleSubmitStart (s : ViewState) : Option ViewState :=
  if s.formData.title.trim = "" then none
  else some { s with isLoading := true }

/-- Second half of `handleSubmit`: on success the returned todo is appended
and the form reset; on failure only the error is logged; `isLoading` is
cleared in the `finally` block either way. -/
def handleSubmitFinish (s : ViewState) (resp : Except String Todo) : ViewState :=
  match resp with
  | Except.ok r =>
      { s with
        todos := s.todos ++ [r]
        formData := { title := "", description := none }
        isLoading := false }
  | Except.error _ => { s with isLoading := false }

/-- The `updateData` built by `handleToggleComplete`: only the id and the
negated completed flag. -/
def toggleInput (todo : Todo) : UpdateTodoInput :=
  { id := todo.id, completed := some (!todo.completed) }

/-- The `handleToggleComplete` continuation after the mutation resolves: on success replace the
item with the server's record, on failure only log. -/
def handleToggleComplete (todo : Todo) (resp : Except String Todo)
    (todos : List Todo) : List Todo :=
  match resp with
  | Except.ok r => todos.map (fun t => if t.id == todo.id then r else t)
  | Except.error _ => todos

/-- The `handleDelete` continuation after the mutation resolves: the response value is
discarded; on resolution the item is filtered out of local state, on
rejection only log. -/
def handleDelete (todoId : Nat) (resp : Except String Bool)
    (todos : List Todo) : List Todo :=
  match resp with
  | Except.ok _ => todos.filter (fun t => t.id != todoId)
  | Except.error _ => todos

/-- The view computes `completedCount = todos.filter(t => t.completed).length`. -/
def completedCount (todos : List Todo) : Nat :=
  (todos.filter (fun t => t.completed)).length

/-- The view computes `totalCount = todos.length`. -/
def totalCount (todos : List Todo) : Nat := todos.length

/-- The remaining badge displays `totalCount - completedCount`. -/
def remainingCount (todos : List Todo) : Nat :=
  totalCount todos - completedCount todos

/-- The summary badges render under `totalCount > 0 && ...`. -/
def showSummary (todos : List Todo) : Bool := decide (0 < totalCount todos)

/-- The empty-state card renders on the `todos.length === 0` branch. -/
def showEmptyPlaceholder (todos : List Todo) : Bool := totalCount todos == 0

/-- Both description textareas store `e.target.value || null`: the empty
string is converted to the absent-value. -/
def descriptionOnChange (value : String) : Option String :=
  if value = "" then none else some value

/-- Values the create form's description field can hold: it starts as `none`
and every change writes `descriptionOnChange`; the reset after a successful
submit also writes `none`. -/
inductive CreateDescState : Option String → Prop where
  | init : CreateDescState none
  | change (v : String) : CreateDescState (descriptionOnChange v)

/-- Values the edit form's description can hold once `startEdit todo` ran: the
pre-fill is `todo.description` and every change writes `descriptionOnChange`. -/
inductive EditDescState (todo : Todo) : Option String → Prop where
  | start : EditDescState todo todo.description
  | change (v : String) : EditDescState todo (descriptionOnChange v)

/-! ## Theme system -/

/-- The two display modes. -/
inductive Theme where
  | light
  | dark
deriving DecidableEq, Repr

/-- The two icons the ThemeToggle button can render. -/
inductive ToggleIcon where
  | moon
  | sun
deriving DecidableEq, Repr

/-- Modelled from the spec: the ThemeProvider's `toggleTheme` (its source is
not in the repository snapshot) flips the current state. -/
def toggleTheme : Theme → Theme
  | Theme.light => Theme.dark
  | Theme.dark => Theme.light

/-- Modelled from the spec: the ThemeProvider persists the new value on
toggle; one toggle step maps (current mode, persisted preference) to the new
mode together with the newly persisted preference. -/
def themeToggleStep (s : Theme × Option Theme) : Theme × Option Theme :=
  (toggleTheme s.fst, some (toggleTheme s.fst))

/-- Modelled from the spec: a fresh session resolves its initial mode from
the persisted preference if one exists, otherwise light. -/
def initTheme (stored : Option Theme) : Theme := stored.getD Theme.light

/-- Name of a mode as it appears in the ThemeToggle title text. -/
def modeName : Theme → String
  | Theme.light => "light"
  | Theme.dark => "dark"

/-- The ThemeToggle button's title attribute (from the ThemeToggle source):
names the mode the click would switch to. -/
def themeToggleTitle (t : Theme) : String :=
  "Switch to " ++ (if t = Theme.light then "dark" else "light") ++ " mode"

/-- The ThemeToggle icon (from the ThemeToggle source): Moon while light,
Sun while dark. -/
def themeToggleIcon : Theme → ToggleIcon
  | Theme.light => ToggleIcon.moon
  | Theme.dark => ToggleIcon.sun

/-! ## Claims -/

/-- C1: for every UpdateTodoInput matching an existing todo, the update
applies exactly the fields present in the input, leaves omitted fields
unchanged, and sets `updated_at` to the current time, strictly later than the
prior `updated_at`; in particular updating only the title leaves description
and completed unchanged. -/
theorem updateTodo_applies_present_fields_only (input : UpdateTodoInput) (now : Nat)
    (store : List Todo) (t : Todo)
    (hmatch : store.filter (fun x => x.id == input.id) = [t])
    (hclock : t.updated_at < now) :
    ∃ r, updateTodo input now store = (Except.ok r, store.map (updRow input now))
      ∧ r.title = input.title.getD t.title
      ∧ r.description = input.description.getD t.description
      ∧ r.completed = input.completed.getD t.completed
      ∧ r.id = t.id
      ∧ r.created_at = t.created_at
      ∧ r.updated_at = now
      ∧ t.updated_at < r.updated_at
      ∧ (input.description = none → input.completed = none →
          r.description = t.description ∧ r.completed = t.completed) := by
  have hf := filter_map_updRow input now store
  rw [hmatch] at hf
  refine ⟨applyUpdate input now t, ?_, rfl, rfl, rfl, rfl, rfl, rfl, hclock, ?_⟩
  · unfold updateTodo
    simp only [hf, List.map_cons, List.map_nil]
  · intro hd hc
    constructor
    · simp [applyUpdate, hd]
    · simp [applyUpdate, hc]

theorem updateTodo_c1_witness :
    ([(⟨1, "a", some "b", false, 0, 0⟩ : Todo)].filter
        (fun x => x.id == (⟨1, some "c", none, none⟩ : UpdateTodoInput).id)
        = [(⟨1, "a", some "b", false, 0, 0⟩ : Todo)]
      ∧ (⟨1, "a", some "b", false, 0, 0⟩ : Todo).updated_at < 5)
    ∧ ∃ r, updateTodo ⟨1, some "c", none, none⟩ 5 [⟨1, "a", some "b", false, 0, 0⟩]
        = (Except.ok r,
           [(⟨1, "a", some "b", false, 0, 0⟩ : Todo)].map (updRow ⟨1, some "c", none, none⟩ 5))
      ∧ r.title = (some "c").getD "a"
      ∧ r.description = none.getD (some "b")
      ∧ r.completed = none.getD false
      ∧ r.id = 1
      ∧ r.created_at = 0
      ∧ r.updated_at = 5
      ∧ (0 : Nat) < r.updated_at
      ∧ ((none : Option (Option String)) = none → (none : Option Bool) = none →
          r.description = some "b" ∧ r.completed = false) :=
  ⟨⟨by decide, by decide⟩,
    updateTodo_applies_present_fields_only ⟨1, some "c", none, none⟩ 5
      [⟨1, "a", some "b", false, 0, 0⟩] ⟨1, "a", some "b", false, 0, 0⟩
      (by decide) (by decide)⟩

/-- C2: updating a nonexistent id fails in the same call with an error
message naming the missing id, and mutates no row: the store is returned
unchanged. -/
theorem updateTodo_not_found (input : UpdateTodoInput) (now : Nat) (store : List Todo)
    (hnone : ∀ x ∈ store, x.id ≠ input.id) :
    updateTodo input now store
      = (Except.error ("Todo with id " ++ toString input.id ++ " not found"), store) := by
  have hmap := map_updRow_of_no_match input now store hnone
  have hfil : store.filter (fun t => t.id == input.id) = [] := by
    rw [List.filter_eq_nil_iff]
    intro a ha
    simpa using hnone a ha
  unfold updateTodo
  simp only [hmap, hfil]

theorem updateTodo_c2_witness :
    (∀ x ∈ [(⟨1, "a", none, false, 0, 0⟩ : Todo)],
        Todo.id x ≠ (⟨999999, some "c", none, none⟩ : UpdateTodoInput).id)
    ∧ updateTodo ⟨999999, some "c", none, none⟩ 5 [⟨1, "a", none, false, 0, 0⟩]
        = (Except.error ("Todo with id " ++ toString (999999 : Nat) ++ " not found"),
           [⟨1, "a", none, false, 0, 0⟩]) :=
  ⟨by decide,
    updateTodo_not_found ⟨999999, some "c", none, none⟩ 5
      [⟨1, "a", none, false, 0, 0⟩] (by decide)⟩

/-- C3: an update supplying the explicit absent-value for description clears
the description while leaving title and completed unchanged when those are
omitted; an update omitting description leaves it as it was. -/
theorem updateTodo_description_semantics (input : UpdateTodoInput) (now : Nat)
    (store : List Todo) (t : Todo)
    (hmatch : store.filter (fun x => x.id == input.id) = [t]) :
    ∃ r, (updateTodo input now store).fst = Except.ok r
      ∧ (input.description = some none → r.description = none)
      ∧ (input.description = none → r.description = t.description)
      ∧ (input.title = none → r.title = t.title)
      ∧ (input.completed = none → r.completed = t.completed) := by
  have hf := filter_map_updRow input now store
  rw [hmatch] at hf
  refine ⟨applyUpdate input now t, ?_, ?_, ?_, ?_, ?_⟩
  · unfold updateTodo
    simp only [hf, List.map_cons, List.map_nil]
  · intro h; simp [applyUpdate, h]
  · intro h; simp [applyUpdate, h]
  · intro h; simp [applyUpdate, h]
  · intro h; simp [applyUpdate, h]

theorem updateTodo_c3_witness :
    ([(⟨1, "a", some "b", false, 0, 0⟩ : Todo)].filter
        (fun x => x.id == (⟨1, none, some none, none⟩ : UpdateTodoInput).id)
        = [(⟨1, "a", some "b", false, 0, 0⟩ : Todo)])
    ∧ ∃ r, (updateTodo ⟨1, none, some none, none⟩ 5 [⟨1, "a", some "b", false, 0, 0⟩]).fst
        = Except.ok r
      ∧ ((some (none : Option String) : Option (Option String)) = some none →
          r.description = none)
      ∧ ((some (none : Option String) : Option (Option String)) = none →
          r.description = some "b")
      ∧ ((none : Option String) = none → r.title = "a")
      ∧ ((none : Option Bool) = none → r.completed = false) :=
  ⟨by decide,
    updateTodo_description_semantics ⟨1, none, some none, none⟩ 5
      [⟨1, "a", some "b", false, 0, 0⟩] ⟨1, "a", some "b", false, 0, 0⟩ (by decide)⟩

/-! ### Helper lemmas for delete -/

theorem length_filter_id_le_one (store : List Todo) (i : Nat)
    (hnodup : (store.map Todo.id).Nodup) :
    (store.filter (fun t => t.id == i)).length ≤ 1 := by
  induction store with
  | nil => simp
  | cons a l ih =>
      simp only [List.map_cons, List.nodup_cons] at hnodup
      by_cases h : a.id = i
      · have hrest : l.filter (fun t => t.id == i) = [] := by
          rw [List.filter_eq_nil_iff]
          intro b hb
          simp only [beq_iff_eq]
          intro hbid
          refine absurd ?_ hnodup.1
          rw [h, ← hbid]
          exact List.mem_map_of_mem Todo.id hb
        simp [List.filter_cons, h, hrest]
      · simp only [List.filter_cons, beq_iff_eq, h, if_false]
        exact ih hnodup.2

theorem length_filter_eq_add_ne (store : List Todo) (i : Nat) :
    (store.filter (fun t => t.id == i)).length
      + (store.filter (fun t => t.id != i)).length = store.length := by
  induction store with
  | nil => rfl
  | cons a l ih =>
      by_cases h : a.id = i
      · simp [List.filter_cons, h, ← ih, Nat.succ_add]
      · simp [List.filter_cons, h, ← ih]
        omega

/-- C4: the delete operation returns success=true iff a row with the id
existed (and then no such row remains), returns success=false as a normal
outcome leaving the store unchanged when no row matched, and removes at most
one row. -/
theorem deleteTodo_success_spec (input : DeleteTodoInput) (store : List Todo)
    (hnodup : (store.map Todo.id).Nodup) :
    ((deleteTodo input store).fst = true ↔ ∃ t ∈ store, t.id = input.id)
    ∧ (∀ t ∈ (deleteTodo input store).snd, t.id ≠ input.id)
    ∧ (∀ t ∈ store, t.id ≠ input.id → t ∈ (deleteTodo input store).snd)
    ∧ ((deleteTodo input store).fst = false → (deleteTodo input store).snd = store)
    ∧ store.length ≤ (deleteTodo input store).snd.length + 1 := by
  refine ⟨?_, ?_, ?_, ?_, ?_⟩
  · simp only [deleteTodo, decide_eq_true_eq, List.length_pos, ne_eq,
      List.filter_eq_nil_iff, beq_iff_eq, not_forall, not_not]
    constructor
    · rintro ⟨t, ht, hid⟩
      exact ⟨t, ht, hid⟩
    · rintro ⟨t, ht, hid⟩
      exact ⟨t, ht, hid⟩
  · intro t ht
    simp only [deleteTodo, List.mem_filter, bne_iff_ne, ne_eq] at ht
    exact ht.2
  · intro t ht hne
    simp only [deleteTodo, List.mem_filter, bne_iff_ne, ne_eq]
    exact ⟨ht, hne⟩
  · intro hfalse
    simp only [deleteTodo, decide_eq_false_iff_not, Nat.pos_iff_ne_zero, not_not,
      List.length_eq_zero] at hfalse
    have hall : ∀ t ∈ store, t.id ≠ input.id := by
      intro t ht
      have := List.filter_eq_nil_iff.mp hfalse t ht
      simpa using this
    simp only [deleteTodo]
    rw [List.filter_eq_self]
    intro t ht
    simpa using hall t ht
  · have h1 := length_filter_id_le_one store input.id hnodup
    have h2 := length_filter_eq_add_ne store input.id
    simp only [deleteTodo]
    omega

theorem deleteTodo_c4_witness :
    (([(⟨1, "a", none, false, 0, 0⟩ : Todo)].map Todo.id).Nodup)
    ∧ (((deleteTodo ⟨99999⟩ [⟨1, "a", none, false, 0, 0⟩]).fst = true
          ↔ ∃ t ∈ [(⟨1, "a", none, false, 0, 0⟩ : Todo)], t.id = (99999 : Nat))
      ∧ (∀ t ∈ (deleteTodo ⟨99999⟩ [⟨1, "a", none, false, 0, 0⟩]).snd,
            Todo.id t ≠ (99999 : Nat))
      ∧ (∀ t ∈ [(⟨1, "a", none, false, 0, 0⟩ : Todo)], Todo.id t ≠ (99999 : Nat) →
            t ∈ (deleteTodo ⟨99999⟩ [⟨1, "a", none, false, 0, 0⟩]).snd)
      ∧ ((deleteTodo ⟨99999⟩ [⟨1, "a", none, false, 0, 0⟩]).fst = false →
            (deleteTodo ⟨99999⟩ [⟨1, "a", none, false, 0, 0⟩]).snd
              = [⟨1, "a", none, false, 0, 0⟩])
      ∧ List.length [(⟨1, "a", none, false, 0, 0⟩ : Todo)]
          ≤ (deleteTodo ⟨99999⟩ [⟨1, "a", none, false, 0, 0⟩]).snd.length + 1) :=
  ⟨by decide, deleteTodo_success_spec ⟨99999⟩ [⟨1, "a", none, false, 0, 0⟩] (by decide)⟩

/-- C5: the completion toggle sends exactly the id and the negated completed
flag (title and description omitted); on success the matching item is
replaced with the server's record while other items are untouched; on failure
local state is left exactly as it was. -/
theorem toggle_sends_only_flipped_completed (todo : Todo) (todos : List Todo)
    (r : Todo) (e : String) :
    (toggleInput todo).id = todo.id
    ∧ (toggleInput todo).completed = some (!todo.completed)
    ∧ (toggleInput todo).title = none
    ∧ (toggleInput todo).description = none
    ∧ handleToggleComplete todo (Except.ok r) todos
        = todos.map (fun t => if t.id == todo.id then r else t)
    ∧ (∀ t ∈ todos, t.id ≠ todo.id → t ∈ handleToggleComplete todo (Except.ok r) todos)
    ∧ handleToggleComplete todo (Except.error e) todos = todos := by
  refine ⟨rfl, rfl, rfl, rfl, rfl, ?_, rfl⟩
  intro t ht hne
  simp only [handleToggleComplete]
  have : (if t.id == todo.id then r else t) = t := by
    simp [hne]
  exact this ▸ List.mem_map_of_mem _ ht

theorem toggle_c5_witness :
    (toggleInput ⟨1, "a", none, false, 0, 0⟩).id = 1
    ∧ (toggleInput ⟨1, "a", none, false, 0, 0⟩).completed = some (!false)
    ∧ (toggleInput ⟨1, "a", none, false, 0, 0⟩).title = none
    ∧ (toggleInput ⟨1, "a", none, false, 0, 0⟩).description = none
    ∧ handleToggleComplete ⟨1, "a", none, false, 0, 0⟩
        (Except.ok ⟨1, "a", none, true, 0, 5⟩) [⟨1, "a", none, false, 0, 0⟩]
        = [(⟨1, "a", none, false, 0, 0⟩ : Todo)].map
            (fun t => if t.id == (1 : Nat) then (⟨1, "a", none, true, 0, 5⟩ : Todo) else t)
    ∧ (∀ t ∈ [(⟨1, "a", none, false, 0, 0⟩ : Todo)], Todo.id t ≠ (1 : Nat) →
        t ∈ handleToggleComplete ⟨1, "a", none, false, 0, 0⟩
          (Except.ok ⟨1, "a", none, true, 0, 5⟩) [⟨1, "a", none, false, 0, 0⟩])
    ∧ handleToggleComplete ⟨1, "a", none, false, 0, 0⟩ (Except.error "x")
        [⟨1, "a", none, false, 0, 0⟩] = [⟨1, "a", none, false, 0, 0⟩] :=
  toggle_sends_only_flipped_completed ⟨1, "a", none, false, 0, 0⟩
    [⟨1, "a", none, false, 0, 0⟩] ⟨1, "a", none, true, 0, 5⟩ "x"

/-- C6: a create-form submission with a whitespace-only title makes no RPC
call; otherwise the call proceeds with the submit button disabled while in
flight, success appends the returned todo and clears the form, and failure
leaves both the list and the form data untouched. -/
theorem create_form_submit_spec (s : ViewState) (r : Todo) (e : String) :
    (s.formData.title.trim = "" → handleSubmitStart s = none)
    ∧ (s.formData.title.trim ≠ "" →
        handleSubmitStart s = some { s with isLoading := true }
        ∧ ∀ s2, handleSubmitStart s = some s2 → createButtonDisabled s2.isLoading = true)
    ∧ handleSubmitFinish { s with isLoading := true } (Except.ok r)
        = { todos := s.todos ++ [r], isLoading := false,
            formData := { title := "", description := none } }
    ∧ handleSubmitFinish { s with isLoading := true } (Except.error e)
        = { s with isLoading := false } := by
  refine ⟨?_, ?_, rfl, rfl⟩
  · intro h
    simp [handleSubmitStart, h]
  · intro h
    constructor
    · simp [handleSubmitStart, h]
    · intro s2 hs2
      simp only [handleSubmitStart, h, if_false, Option.some.injEq] at hs2
      rw [← hs2]
      rfl

theorem create_form_c6_witness :
    (((⟨[], false, ⟨"a", none⟩⟩ : ViewState).formData.title.trim = "" →
          handleSubmitStart ⟨[], false, ⟨"a", none⟩⟩ = none)
      ∧ ((⟨[], false, ⟨"a", none⟩⟩ : ViewState).formData.title.trim ≠ "" →
          handleSubmitStart ⟨[], false, ⟨"a", none⟩⟩
            = some { (⟨[], false, ⟨"a", none⟩⟩ : ViewState) with isLoading := true }
          ∧ ∀ s2, handleSubmitStart ⟨[], false, ⟨"a", none⟩⟩ = some s2 →
              createButtonDisabled s2.isLoading = true)
      ∧ handleSubmitFinish
            { (⟨[], false, ⟨"a", none⟩⟩ : ViewState) with isLoading := true }
            (Except.ok ⟨1, "a", none, false, 0, 0⟩)
          = { todos := [] ++ [⟨1, "a", none, false, 0, 0⟩], isLoading := false,
              formData := { title := "", description := none } }
      ∧ handleSubmitFinish
            { (⟨[], false, ⟨"a", none⟩⟩ : ViewState) with isLoading := true }
            (Except.error "x")
          = { (⟨[], false, ⟨"a", none⟩⟩ : ViewState) with isLoading := false }) :=
  create_form_submit_spec ⟨[], false, ⟨"a", none⟩⟩ ⟨1, "a", none, false, 0, 0⟩ "x"

/-- C7: the empty placeholder renders iff the local list is empty, the
summary badges render iff the total count is positive, and the remaining
badge always shows total minus completed (which together with completed adds
back up to the total). -/
theorem counters_spec (todos : List Todo) :
    (showEmptyPlaceholder todos = true ↔ todos = [])
    ∧ (showSummary todos = true ↔ 0 < totalCount todos)
    ∧ remainingCount todos = totalCount todos - completedCount todos
    ∧ completedCount todos + remainingCount todos = totalCount todos := by
  refine ⟨?_, ?_, rfl, ?_⟩
  · simp [showEmptyPlaceholder, totalCount, List.length_eq_zero]
  · simp [showSummary]
  · have hle : completedCount todos ≤ totalCount todos :=
      List.length_filter_le _ todos
    simp only [remainingCount]
    omega

theorem counters_c7_witness :
    (showEmptyPlaceholder [(⟨1, "a", none, true, 0, 0⟩ : Todo)] = true
        ↔ [(⟨1, "a", none, true, 0, 0⟩ : Todo)] = [])
    ∧ (showSummary [(⟨1, "a", none, true, 0, 0⟩ : Todo)] = true
        ↔ 0 < totalCount [(⟨1, "a", none, true, 0, 0⟩ : Todo)])
    ∧ remainingCount [(⟨1, "a", none, true, 0, 0⟩ : Todo)]
        = totalCount [(⟨1, "a", none, true, 0, 0⟩ : Todo)]
          - completedCount [(⟨1, "a", none, true, 0, 0⟩ : Todo)]
    ∧ completedCount [(⟨1, "a", none, true, 0, 0⟩ : Todo)]
        + remainingCount [(⟨1, "a", none, true, 0, 0⟩ : Todo)]
        = totalCount [(⟨1, "a", none, true, 0, 0⟩ : Todo)] :=
  counters_spec [⟨1, "a", none, true, 0, 0⟩]

/-- C8: toggling the theme twice restores the original mode, the persisted
preference after a toggle is what a fresh session initializes from, and the
toggle button's title and icon reflect the mode a click would switch to. -/
theorem theme_toggle_spec (t : Theme) (stored : Option Theme) :
    (themeToggleStep (themeToggleStep (t, stored))).fst = t
    ∧ initTheme (themeToggleStep (t, stored)).snd = toggleTheme t
    ∧ themeToggleTitle t = "Switch to " ++ modeName (toggleTheme t) ++ " mode"
    ∧ themeToggleIcon Theme.light = ToggleIcon.moon
    ∧ themeToggleIcon Theme.dark = ToggleIcon.sun := by
  cases t <;> exact ⟨rfl, rfl, rfl, rfl, rfl⟩

/-- C9: when the delete mutation resolves, the view removes the item from
local state without inspecting the returned success flag: the resulting list
is the same for every returned flag, and in particular when the server store
has no row with the id (so the handler returns success=false) the item is
still filtered out of the displayed list. -/
theorem delete_view_ignores_success_flag (todoId : Nat) (todos store : List Todo)
    (b1 b2 : Bool)
    (habsent : ∀ t ∈ store, t.id ≠ todoId) :
    handleDelete todoId (Except.ok b1) todos = handleDelete todoId (Except.ok b2) todos
    ∧ (deleteTodo ⟨todoId⟩ store).fst = false
    ∧ handleDelete todoId (Except.ok (deleteTodo ⟨todoId⟩ store).fst) todos
        = todos.filter (fun t => t.id != todoId)
    ∧ (∀ t ∈ handleDelete todoId (Except.ok false) todos, t.id ≠ todoId) := by
  refine ⟨rfl, ?_, rfl, ?_⟩
  · have hfil : store.filter (fun t => t.id == todoId) = [] := by
      rw [List.filter_eq_nil_iff]
      intro a ha
      simpa using habsent a ha
    simp [deleteTodo, hfil]
  · intro t ht
    simp only [handleDelete, List.mem_filter, bne_iff_ne, ne_eq] at ht
    exact ht.2

theorem delete_view_c9_witness :
    (∀ t ∈ [(⟨1, "a", none, false, 0, 0⟩ : Todo)], Todo.id t ≠ (7 : Nat))
    ∧ (handleDelete 7 (Except.ok true) [⟨7, "b", none, false, 0, 0⟩]
          = handleDelete 7 (Except.ok false) [⟨7, "b", none, false, 0, 0⟩]
      ∧ (deleteTodo ⟨7⟩ [⟨1, "a", none, false, 0, 0⟩]).fst = false
      ∧ handleDelete 7 (Except.ok (deleteTodo ⟨7⟩ [⟨1, "a", none, false, 0, 0⟩]).fst)
            [⟨7, "b", none, false, 0, 0⟩]
          = [(⟨7, "b", none, false, 0, 0⟩ : Todo)].filter (fun t => t.id != (7 : Nat))
      ∧ (∀ t ∈ handleDelete 7 (Except.ok false) [⟨7, "b", none, false, 0, 0⟩],
            Todo.id t ≠ (7 : Nat))) :=
  ⟨by decide,
    delete_view_ignores_success_flag 7 [⟨7, "b", none, false, 0, 0⟩]
      [⟨1, "a", none, false, 0, 0⟩] true false (by decide)⟩

/-- C10: both description textareas store `value || null`, so the value a
form submission sends for the description is never the empty string: the
create form's reachable description values exclude `some ""` outright, and the
edit form's do as well whenever the pre-filled todo's description is not the
empty string. -/
theorem description_never_empty_string (todo : Todo)
    (hpre : todo.description ≠ some "") :
    (∀ v, descriptionOnChange v ≠ some "")
    ∧ (∀ d, CreateDescState d → d ≠ some "")
    ∧ (∀ d, EditDescState todo d → d ≠ some "") := by
  have hch : ∀ v, descriptionOnChange v ≠ some "" := by
    intro v
    by_cases h : v = ""
    · simp [descriptionOnChange, h]
    · simp [descriptionOnChange, h]
  refine ⟨hch, ?_, ?_⟩
  · intro d hd
    cases hd with
    | init => simp
    | change v => exact hch v
  · intro d hd
    cases hd with
    | start => exact hpre
    | change v => exact hch v

theorem description_c10_witness :
    ((⟨1, "a", some "b", false, 0, 0⟩ : Todo).description ≠ some "")
    ∧ ((∀ v, descriptionOnChange v ≠ some "")
      ∧ (∀ d, CreateDescState d → d ≠ some "")
      ∧ (∀ d, EditDescState ⟨1, "a", some "b", false, 0, 0⟩ d → d ≠ some "")) :=
  ⟨by decide, description_never_empty_string ⟨1, "a", some "b", false, 0, 0⟩ (by decide)⟩
